import Mathlib

/-!
GenericFactory: a keyed lazy factory (genericfactory.hpp)

Shallow embedding of the class template `GenericFactory<BaseClass, Key>`.

* `Key` is the key type of both maps, `Obj` is the type of object identities (the
  address a creator returns), `Exn` is the type of exceptions a creator may throw and
  `World` is everything outside the factory that a creator can read or change
  (allocator, standard output, ...).
* A raw pointer `BaseClass*` and a `std::shared_ptr<BaseClass>` are both `Option Obj`,
  `none` being `nullptr`.
* A `std::map<K, V>` is a partial function `K → Option V`; only the operations the class
  uses are embedded (`find`, `operator[]`, `emplace`, `erase`).
* The class is embedded twice.  In the first embedding (`GenericFactory`) a creator is a
  function of the world only: it returns a raw pointer or throws, and leaves a new world;
  it cannot touch the factory that runs it.  In the second (`Reentrant.Factory`) a creator
  may call `get`, `stop`, `add` and `remove` on the factory that runs it, as a
  `std::function` that captures the factory can.  The first embedding is the second one
  restricted to creators that leave the factory alone (`Reentrant.get_lift`).
* An empty `std::function` is the creator that throws `bad_function_call`.
* Reference counts are not embedded: the copy of a handle that `get` returns and the
  destructor that runs when `erase` drops the last owner of an object leave no trace in the
  world.  A creator that removes or replaces the registration it is running from is
  undefined behaviour in C++; the embedding lets its run go on.
-/

/-- The map `std::map<K, V>`: the element mapped to each key, `none` where there is none. -/
def StdMap (K V : Type) : Type := K → Option V

namespace StdMap

variable {K V : Type}

/-- A default-constructed map has no element. -/
def empty : StdMap K V := fun _ => none

/-- The call `m.find(k)`: `none` stands for `m.end()`, `some v` for an iterator to `(k, v)`. -/
def find (m : StdMap K V) (k : K) : Option V := m k

/-- The statement `m[k] = v`: the element for `k` is created if missing, then assigned. -/
def assign [DecidableEq K] (m : StdMap K V) (k : K) (v : V) : StdMap K V :=
  fun j => if j = k then some v else m j

/-- The call `m.emplace(k, v)`: inserts `(k, v)` only when `m` has no element for `k`. -/
def emplace [DecidableEq K] (m : StdMap K V) (k : K) (v : V) : StdMap K V :=
  match m.find k with
  | some _ => m
  | none => fun j => if j = k then some v else m j

/-- The expression `m[k]` read as a value: when `m` has no element for `k` a
value-initialised one (`dflt`) is inserted first.  Returns the value and the map. -/
def index [DecidableEq K] (dflt : V) (m : StdMap K V) (k : K) : V × StdMap K V :=
  match m.find k with
  | some v => (v, m)
  | none => (dflt, fun j => if j = k then some dflt else m j)

/-- The call `m.erase(k)`: the number of elements removed (0 or 1) and the map left. -/
def erase [DecidableEq K] (m : StdMap K V) (k : K) : Nat × StdMap K V :=
  match m.find k with
  | some _ => (1, fun j => if j = k then none else m j)
  | none => (0, m)

end StdMap

/-- The type `creatorFunc` (`std::function<BaseClass* ()>`) for creators that leave the
factory alone: run in a world, such a creator returns a raw pointer (`none` is `nullptr`)
or throws, and leaves a new world.  Creators that call back into the factory are
`Reentrant.creatorFunc`. -/
def GenericFactory.creatorFunc (World Obj Exn : Type) : Type :=
  World → Except Exn (Option Obj) × World

/-- The type `creators` (`std::map<Key, creatorFunc>`). -/
def GenericFactory.creators (Key World Obj Exn : Type) : Type :=
  StdMap Key (GenericFactory.creatorFunc World Obj Exn)

/-- The private struct `initializer`: one entry of the constructor's list. -/
structure GenericFactory.initializer (Key World Obj Exn : Type) where
  key : Key
  fn : GenericFactory.creatorFunc World Obj Exn

/-- The exception `std::runtime_error`, with its message. -/
structure runtime_error where
  what : String
  deriving DecidableEq, Repr

/-- The data members of `GenericFactory<BaseClass, Key>`. -/
structure GenericFactory (Key World Obj Exn : Type) where
  _creators : GenericFactory.creators Key World Obj Exn
  _available : StdMap Key (Option Obj)

namespace GenericFactory

variable {Key World Obj Exn : Type} [DecidableEq Key]

/-- The defaulted constructor `GenericFactory()`: both maps are empty. -/
def new : GenericFactory Key World Obj Exn :=
  { _creators := StdMap.empty, _available := StdMap.empty }

/-- The method `add` (lines 76-79): `_creators[key] = creator`. -/
def add (self : GenericFactory Key World Obj Exn) (key : Key)
    (creator : creatorFunc World Obj Exn) : GenericFactory Key World Obj Exn :=
  { self with _creators := self._creators.assign key creator }

/-- The loop of the list constructor (lines 58-65), run on the elements still to be
visited: a key already in `_creators` throws, otherwise the element is added. -/
def ctorLoop : List (initializer Key World Obj Exn) → GenericFactory Key World Obj Exn →
    World → Except runtime_error (GenericFactory Key World Obj Exn) × World
  | [], self, w => (Except.ok self, w)
  | el :: rest, self, w =>
    match self._creators.find el.key with
    | some _ => (Except.error ⟨"Duplicate key in initializer list"⟩, w)
    | none => ctorLoop rest (self.add el.key el.fn) w

/-- The constructor `GenericFactory(const std::initializer_list<initializer>&)`
(lines 56-66): the loop starts from two empty maps. -/
def ofList (l : List (initializer Key World Obj Exn)) (w : World) :
    Except runtime_error (GenericFactory Key World Obj Exn) × World :=
  ctorLoop l new w

/-- The method `remove` (lines 88-96). -/
def remove (self : GenericFactory Key World Obj Exn) (key : Key) :
    Bool × GenericFactory Key World Obj Exn :=
  match self._creators.find key with
  | none => (false, self)
  | some _ =>
    let r := self._creators.erase key
    (decide (r.1 > 0), { self with _creators := r.2 })

/-- The method `get` (lines 104-117) for creators that leave the factory alone.  The
creator's call `it1->second()` is evaluated before `emplace`, so a throwing creator leaves
`_available` as it was.  With creators that call back, `get` is `Reentrant.Factory.get`. -/
def get (self : GenericFactory Key World Obj Exn) (str : Key) (w : World) :
    Except Exn (Option Obj) × GenericFactory Key World Obj Exn × World :=
  match self._available.find str with
  | none =>
    match self._creators.find str with
    | none => (Except.ok none, self, w)
    | some fn =>
      match fn w with
      | (Except.error e, w1) => (Except.error e, self, w1)
      | (Except.ok p, w1) =>
        let r := StdMap.index none (self._available.emplace str p) str
        (Except.ok r.1, { self with _available := r.2 }, w1)
  | some _ =>
    let r := StdMap.index none self._available str
    (Except.ok r.1, { self with _available := r.2 }, w)

/-- The method `registered` (lines 124-127). -/
def registered (self : GenericFactory Key World Obj Exn) : creators Key World Obj Exn :=
  self._creators

/-- The method `stop` (lines 136-144).  Only the return value and the two maps are
embedded: what the destructor of an object does when `erase` drops its last owner is not
part of the world here. -/
def stop (self : GenericFactory Key World Obj Exn) (key : Key) :
    Bool × GenericFactory Key World Obj Exn :=
  match self._available.find key with
  | none => (false, self)
  | some _ =>
    let r := self._available.erase key
    (decide (r.1 > 0), { self with _available := r.2 })

end GenericFactory

namespace GenericFactory

variable {Key World Obj Exn : Type} [DecidableEq Key]

/-- One call of a public method by a client of the factory. -/
inductive Call (Key World Obj Exn : Type) where
  | add (key : Key) (creator : creatorFunc World Obj Exn)
  | remove (key : Key)
  | get (str : Key)
  | stop (key : Key)

/-- The factory and the world after one call; the client drops the value returned and
catches what a creator throws. -/
def Call.exec : Call Key World Obj Exn → GenericFactory Key World Obj Exn × World →
    GenericFactory Key World Obj Exn × World
  | Call.add key creator, s => (s.1.add key creator, s.2)
  | Call.remove key, s => ((s.1.remove key).2, s.2)
  | Call.get str, s => (s.1.get str s.2).2
  | Call.stop key, s => ((s.1.stop key).2, s.2)

/-- The factory and the world after a sequence of calls, made in list order. -/
def run (cs : List (Call Key World Obj Exn)) (s : GenericFactory Key World Obj Exn × World) :
    GenericFactory Key World Obj Exn × World :=
  cs.foldl (fun t c => c.exec t) s

/-- The states a client can bring about: a factory built by either constructor, then any
number of calls. -/
inductive Reachable : GenericFactory Key World Obj Exn × World → Prop where
  | new (w : World) : Reachable (new, w)
  | ofList (l : List (initializer Key World Obj Exn)) (w : World)
      (self : GenericFactory Key World Obj Exn) (h : (ofList l w).1 = Except.ok self) :
      Reachable (self, (ofList l w).2)
  | call (c : Call Key World Obj Exn) (s : GenericFactory Key World Obj Exn × World)
      (h : Reachable s) : Reachable (c.exec s)

end GenericFactory

/-! ## The list constructor as the spec words it -/

namespace GenericFactory

variable {Key World Obj Exn : Type} [DecidableEq Key]

/-- The spec's reading of bulk construction ("registers each pair via the same rule as
add"): `add` is called on each pair, in list order, starting from the factory `self`. -/
def addEach (l : List (initializer Key World Obj Exn))
    (self : GenericFactory Key World Obj Exn) : GenericFactory Key World Obj Exn :=
  l.foldl (fun g el => g.add el.key el.fn) self

end GenericFactory

/-! ## Concrete factories

Keys, worlds and objects are natural numbers and exceptions are strings.  The world is an
allocation counter. -/

namespace Demo

open GenericFactory

/-- A creator that allocates: the new object is named by the counter, which it advances. -/
def alloc : creatorFunc Nat Nat String := fun w => (Except.ok (some w), w + 1)

/-- A creator that advances the counter and then throws. -/
def failing : creatorFunc Nat Nat String := fun w => (Except.error "creator failed", w + 1)

/-- Key 1 is registered with `alloc` and object 3 is cached for it. -/
def registeredCached : GenericFactory Nat Nat Nat String :=
  { _creators := StdMap.empty.assign 1 alloc, _available := StdMap.empty.assign 1 (some 3) }

/-- Object 3 is cached for key 7, which is not registered. -/
def cachedOnly : GenericFactory Nat Nat Nat String :=
  { _creators := StdMap.empty, _available := StdMap.empty.assign 7 (some 3) }

/-- A constructor list with two distinct keys. -/
def twoKeys : List (initializer Nat Nat Nat String) := [⟨1, alloc⟩, ⟨2, failing⟩]

/-- The state after constructing from `[(1, alloc)]` in world 0, then `get 1`, `remove 1`. -/
def removedWhileCached : GenericFactory Nat Nat Nat String × Nat :=
  run [Call.get 1, Call.remove 1] (GenericFactory.new.add 1 alloc, 0)

end Demo

/-! ## Creators that call back into the factory

A `std::function<BaseClass* ()>` may capture the factory it is registered in and call its
public methods while `get` runs it (line 114).  The definitions below embed the class once
more with such creators: a creator is a tree of the calls it makes, and `get` runs it on
the factory itself, continuing with both maps as the creator left them.  The first
embedding is this one restricted to creators that leave the factory alone (`ofSimple`). -/

namespace Reentrant

/-- A creator (`std::function<BaseClass* ()>`) as the tree of what it does: it ends by
returning a raw pointer or throwing (`ret`), reads and writes the world, and calls the
public methods of the factory it is registered in, going on with the value each call
returns (for `get`, the handle or the exception, which the creator may catch). -/
inductive creatorFunc (Key World Obj Exn : Type) : Type where
  | ret (r : Except Exn (Option Obj))
  | read (next : World → creatorFunc Key World Obj Exn)
  | write (w : World) (next : creatorFunc Key World Obj Exn)
  | get (str : Key) (next : Except Exn (Option Obj) → creatorFunc Key World Obj Exn)
  | stop (key : Key) (next : Bool → creatorFunc Key World Obj Exn)
  | remove (key : Key) (next : Bool → creatorFunc Key World Obj Exn)
  | add (key : Key) (creator : creatorFunc Key World Obj Exn)
      (next : creatorFunc Key World Obj Exn)

/-- A creator that leaves the factory alone: it acts on the world as `f` does and returns
or throws what `f` does. -/
def ofSimple {Key World Obj Exn : Type} (f : GenericFactory.creatorFunc World Obj Exn) :
    creatorFunc Key World Obj Exn :=
  creatorFunc.read (fun w => creatorFunc.write (f w).2 (creatorFunc.ret (f w).1))

/-- The private struct `initializer`, for creators that may call back. -/
structure initializer (Key World Obj Exn : Type) where
  key : Key
  fn : creatorFunc Key World Obj Exn

/-- The data members of `GenericFactory<BaseClass, Key>`, for creators that may call
back. -/
structure Factory (Key World Obj Exn : Type) where
  _creators : StdMap Key (creatorFunc Key World Obj Exn)
  _available : StdMap Key (Option Obj)

namespace Factory

variable {Key World Obj Exn : Type} [DecidableEq Key]

/-- The defaulted constructor `GenericFactory()`: both maps are empty. -/
def new : Factory Key World Obj Exn :=
  { _creators := StdMap.empty, _available := StdMap.empty }

/-- The method `add` (lines 76-79): `_creators[key] = creator`. -/
def add (self : Factory Key World Obj Exn) (key : Key)
    (creator : creatorFunc Key World Obj Exn) : Factory Key World Obj Exn :=
  { self with _creators := self._creators.assign key creator }

/-- The loop of the list constructor (lines 58-65). -/
def ctorLoop : List (initializer Key World Obj Exn) → Factory Key World Obj Exn →
    World → Except runtime_error (Factory Key World Obj Exn) × World
  | [], self, w => (Except.ok self, w)
  | el :: rest, self, w =>
    match self._creators.find el.key with
    | some _ => (Except.error ⟨"Duplicate key in initializer list"⟩, w)
    | none => ctorLoop rest (self.add el.key el.fn) w

/-- The constructor from an initializer list (lines 56-66). -/
def ofList (l : List (initializer Key World Obj Exn)) (w : World) :
    Except runtime_error (Factory Key World Obj Exn) × World :=
  ctorLoop l new w

/-- The method `remove` (lines 88-96). -/
def remove (self : Factory Key World Obj Exn) (key : Key) :
    Bool × Factory Key World Obj Exn :=
  match self._creators.find key with
  | none => (false, self)
  | some _ =>
    let r := self._creators.erase key
    (decide (r.1 > 0), { self with _creators := r.2 })

/-- The method `registered` (lines 124-127). -/
def registered (self : Factory Key World Obj Exn) :
    StdMap Key (creatorFunc Key World Obj Exn) :=
  self._creators

/-- The method `stop` (lines 136-144).  Only the return value and the two maps are
embedded: what the destructor of an object does when `erase` drops its last owner is not
part of the world here. -/
def stop (self : Factory Key World Obj Exn) (key : Key) :
    Bool × Factory Key World Obj Exn :=
  match self._available.find key with
  | none => (false, self)
  | some _ =>
    let r := self._available.erase key
    (decide (r.1 > 0), { self with _available := r.2 })

end Factory

variable {Key World Obj Exn : Type} [DecidableEq Key]

/-- One run of a creator on the factory `self` in the world `w`: what it returns or
throws, and the factory and the world it leaves.  The creator's calls of `get` are
answered by `getRec`; `none` means that such a call did not come back. -/
def creatorFunc.call
    (getRec : Factory Key World Obj Exn → Key → World →
      Option (Except Exn (Option Obj) × Factory Key World Obj Exn × World)) :
    creatorFunc Key World Obj Exn → Factory Key World Obj Exn → World →
      Option (Except Exn (Option Obj) × Factory Key World Obj Exn × World)
  | creatorFunc.ret r, self, w => some (r, self, w)
  | creatorFunc.read next, self, w => (next w).call getRec self w
  | creatorFunc.write w1 next, self, _ => next.call getRec self w1
  | creatorFunc.get str next, self, w =>
    match getRec self str w with
    | none => none
    | some (r, self1, w1) => (next r).call getRec self1 w1
  | creatorFunc.stop key next, self, w =>
    (next (self.stop key).1).call getRec (self.stop key).2 w
  | creatorFunc.remove key next, self, w =>
    (next (self.remove key).1).call getRec (self.remove key).2 w
  | creatorFunc.add key creator next, self, w => next.call getRec (self.add key creator) w

/-- The method `get` (lines 104-117) with creators that may call back.  `fuel` bounds how
deep calls of `get` may nest (a `get` inside a creator run by `get`, and so on); `none`
means the bound was reached, and a result is the same under every larger bound
(`get_mono`).  After the creator returns, `emplace` and `operator[]` act
on `_available` as the creator left it, so a pointer returned for a key that the creator
has cached in the meantime is not stored.  When the creator throws, the factory is left
as the creator left it. -/
def Factory.get : Nat → Factory Key World Obj Exn → Key → World →
    Option (Except Exn (Option Obj) × Factory Key World Obj Exn × World)
  | 0, _, _, _ => none
  | fuel + 1, self, str, w =>
    match self._available.find str with
    | none =>
      match self._creators.find str with
      | none => some (Except.ok none, self, w)
      | some fn =>
        match fn.call (Factory.get fuel) self w with
        | none => none
        | some (Except.error e, self1, w1) => some (Except.error e, self1, w1)
        | some (Except.ok p, self1, w1) =>
          let r := StdMap.index none (self1._available.emplace str p) str
          some (Except.ok r.1, { self1 with _available := r.2 }, w1)
    | some _ =>
      let r := StdMap.index none self._available str
      some (Except.ok r.1, { self with _available := r.2 }, w)

/-- One call of a public method by a client of the factory. -/
inductive Call (Key World Obj Exn : Type) where
  | add (key : Key) (creator : creatorFunc Key World Obj Exn)
  | remove (key : Key)
  | get (str : Key)
  | stop (key : Key)

/-- The factory and the world after one call; the client drops the value returned and
catches what a creator throws.  `none` when a `get` reached the bound `fuel`. -/
def Call.exec (fuel : Nat) : Call Key World Obj Exn → Factory Key World Obj Exn × World →
    Option (Factory Key World Obj Exn × World)
  | Call.add key creator, s => some (s.1.add key creator, s.2)
  | Call.remove key, s => some ((s.1.remove key).2, s.2)
  | Call.get str, s =>
    match s.1.get fuel str s.2 with
    | none => none
    | some r => some r.2
  | Call.stop key, s => some ((s.1.stop key).2, s.2)

/-- The factory and the world after a sequence of calls, made in list order. -/
def run (fuel : Nat) : List (Call Key World Obj Exn) → Factory Key World Obj Exn × World →
    Option (Factory Key World Obj Exn × World)
  | [], s => some s
  | c :: cs, s =>
    match c.exec fuel s with
    | none => none
    | some s1 => run fuel cs s1

/-- The factory of the first embedding, seen as one whose creators may call back. -/
def lift (f : GenericFactory Key World Obj Exn) : Factory Key World Obj Exn :=
  { _creators := fun j => (f._creators j).map ofSimple, _available := f._available }

end Reentrant

/-! ## Concrete factories with creators that call back -/

namespace Demo

open Reentrant

/-- A creator that calls `get 2` on its factory and then throws. -/
def getThenThrow : Reentrant.creatorFunc Nat Nat Nat String :=
  creatorFunc.get 2 (fun _ => creatorFunc.ret (Except.error "creator failed"))

/-- Key 1 is registered with `getThenThrow`, key 2 with `alloc`; nothing is cached. -/
def throwingPair : Factory Nat Nat Nat String :=
  (Factory.new.add 1 getThenThrow).add 2 (ofSimple alloc)

/-- Key 1 is registered with `failing`, nothing is cached. -/
def closedFailing : Factory Nat Nat Nat String := Factory.new.add 1 (ofSimple failing)

end Demo

/-! ## Lemmas on the map operations -/

namespace StdMap

variable {K V : Type}

theorem find_empty (k : K) : (empty : StdMap K V).find k = none := rfl

variable [DecidableEq K]

theorem find_assign (m : StdMap K V) (k j : K) (v : V) :
    (m.assign k v).find j = if j = k then some v else m.find j := rfl

theorem find_assign_self (m : StdMap K V) (k : K) (v : V) : (m.assign k v).find k = some v := by
  simp [find_assign]

theorem find_assign_ne (m : StdMap K V) {k j : K} (v : V) (h : j ≠ k) :
    (m.assign k v).find j = m.find j := by
  simp [find_assign, h]

theorem emplace_absent (m : StdMap K V) (k : K) (v : V) (h : m.find k = none) :
    m.emplace k v = fun j => if j = k then some v else m j := by
  unfold emplace
  rw [h]

theorem emplace_present (m : StdMap K V) (k : K) (v v0 : V) (h : m.find k = some v0) :
    m.emplace k v = m := by
  unfold emplace
  rw [h]

theorem index_present (d : V) (m : StdMap K V) (k : K) (v : V) (h : m.find k = some v) :
    index d m k = (v, m) := by
  unfold index
  rw [h]

theorem erase_present (m : StdMap K V) (k : K) (v : V) (h : m.find k = some v) :
    m.erase k = (1, fun j => if j = k then none else m j) := by
  unfold erase
  rw [h]

theorem erase_absent (m : StdMap K V) (k : K) (h : m.find k = none) : m.erase k = (0, m) := by
  unfold erase
  rw [h]

theorem find_erase (m : StdMap K V) (k j : K) :
    (m.erase k).2.find j = if j = k then none else m.find j := by
  cases h : m.find k with
  | none =>
    rw [erase_absent m k h]
    by_cases hj : j = k
    · simp [hj, h]
    · simp [hj]
  | some v =>
    rw [erase_present m k v h]
    rfl

theorem erase_count_pos (m : StdMap K V) (k : K) :
    decide ((m.erase k).1 > 0) = (m.find k).isSome := by
  cases h : m.find k with
  | none => rw [erase_absent m k h]; rfl
  | some v => rw [erase_present m k v h]; rfl

end StdMap

/-! ## Lemmas on the methods -/

namespace GenericFactory

variable {Key World Obj Exn : Type} [DecidableEq Key]

/-- Cache hit: the element found is returned and nothing changes. -/
theorem get_of_available (self : GenericFactory Key World Obj Exn) (str : Key) (w : World)
    (h : Option Obj) (hc : self._available.find str = some h) :
    self.get str w = (Except.ok h, self, w) := by
  unfold get
  rw [hc]
  simp only [StdMap.index_present none self._available str h hc]

/-- Miss on both maps: a null handle is returned and nothing changes. -/
theorem get_of_unknown (self : GenericFactory Key World Obj Exn) (str : Key) (w : World)
    (hc : self._available.find str = none) (hr : self._creators.find str = none) :
    self.get str w = (Except.ok none, self, w) := by
  unfold get
  rw [hc]
  simp only [hr]

/-- Miss on the cache, creator throws: the exception leaves the factory as it was. -/
theorem get_of_throw (self : GenericFactory Key World Obj Exn) (str : Key) (w w1 : World)
    (fn : creatorFunc World Obj Exn) (e : Exn)
    (hc : self._available.find str = none) (hr : self._creators.find str = some fn)
    (hfn : fn w = (Except.error e, w1)) :
    self.get str w = (Except.error e, self, w1) := by
  unfold get
  rw [hc]
  simp only [hr, hfn]

/-- Miss on the cache, creator returns: its pointer is stored under the key and returned. -/
theorem get_of_create (self : GenericFactory Key World Obj Exn) (str : Key) (w w1 : World)
    (fn : creatorFunc World Obj Exn) (p : Option Obj)
    (hc : self._available.find str = none) (hr : self._creators.find str = some fn)
    (hfn : fn w = (Except.ok p, w1)) :
    self.get str w =
      (Except.ok p, { self with _available := self._available.assign str p }, w1) := by
  unfold get
  rw [hc]
  simp only [hr, hfn]
  have he : self._available.emplace str p = self._available.assign str p :=
    StdMap.emplace_absent self._available str p hc
  rw [he, StdMap.index_present none _ str p (StdMap.find_assign_self _ _ _)]

/-- The four outcomes of `get`, by cases on the two lookups and the creator's result. -/
theorem get_cases (self : GenericFactory Key World Obj Exn) (str : Key) (w : World) :
    (self.get str w).2.1 = self ∨
    ∃ p, self._available.find str = none ∧
      (self.get str w).2.1 = { self with _available := self._available.assign str p } := by
  cases hc : self._available.find str with
  | some h => left; rw [get_of_available self str w h hc]
  | none =>
    cases hr : self._creators.find str with
    | none => left; rw [get_of_unknown self str w hc hr]
    | some fn =>
      rcases hfn : fn w with ⟨r, w1⟩
      cases r with
      | error e => left; rw [get_of_throw self str w w1 fn e hc hr hfn]
      | ok p => right; exact ⟨p, rfl, by rw [get_of_create self str w w1 fn p hc hr hfn]⟩

theorem get_available_of_ne (self : GenericFactory Key World Obj Exn) (str j : Key) (w : World)
    (hj : j ≠ str) : (self.get str w).2.1._available.find j = self._available.find j := by
  rcases get_cases self str w with h | ⟨p, _, h⟩ <;> rw [h]
  exact StdMap.find_assign_ne _ p hj

theorem get_available_of_cached (self : GenericFactory Key World Obj Exn) (str j : Key)
    (w : World) (h : Option Obj) (hc : self._available.find j = some h) :
    (self.get str w).2.1._available.find j = some h := by
  by_cases hj : j = str
  · subst hj
    rw [get_of_available self j w h hc]
    exact hc
  · rw [get_available_of_ne self str j w hj]
    exact hc

theorem remove_fst (self : GenericFactory Key World Obj Exn) (key : Key) :
    (self.remove key).1 = (self._creators.find key).isSome := by
  unfold remove
  cases h : self._creators.find key with
  | none => rfl
  | some fn =>
    simp only [StdMap.erase_present _ key fn h]
    rfl

theorem remove_creators (self : GenericFactory Key World Obj Exn) (key j : Key) :
    (self.remove key).2._creators.find j =
      if j = key then none else self._creators.find j := by
  unfold remove
  cases h : self._creators.find key with
  | none =>
    by_cases hj : j = key
    · simp [hj, h]
    · simp [hj]
  | some fn =>
    simp only [StdMap.erase_present _ key fn h]
    rfl

theorem remove_available (self : GenericFactory Key World Obj Exn) (key : Key) :
    (self.remove key).2._available = self._available := by
  unfold remove
  cases h : self._creators.find key <;> rfl

theorem stop_fst (self : GenericFactory Key World Obj Exn) (key : Key) :
    (self.stop key).1 = (self._available.find key).isSome := by
  unfold stop
  cases h : self._available.find key with
  | none => rfl
  | some v =>
    simp only [StdMap.erase_present _ key v h]
    rfl

theorem stop_available (self : GenericFactory Key World Obj Exn) (key j : Key) :
    (self.stop key).2._available.find j =
      if j = key then none else self._available.find j := by
  unfold stop
  cases h : self._available.find key with
  | none =>
    by_cases hj : j = key
    · simp [hj, h]
    · simp [hj]
  | some v =>
    simp only [StdMap.erase_present _ key v h]
    rfl

theorem stop_creators (self : GenericFactory Key World Obj Exn) (key : Key) :
    (self.stop key).2._creators = self._creators := by
  unfold stop
  cases h : self._available.find key <;> rfl

end GenericFactory

/-! ## Lemmas on sequences of calls and on the list constructor -/

namespace GenericFactory

variable {Key World Obj Exn : Type} [DecidableEq Key]

theorem reachable_run (cs : List (Call Key World Obj Exn))
    (s : GenericFactory Key World Obj Exn × World) (h : Reachable s) : Reachable (run cs s) := by
  induction cs generalizing s with
  | nil => exact h
  | cons c cs ih => exact ih (c.exec s) (Reachable.call c s h)

theorem ctorLoop_world (l : List (initializer Key World Obj Exn))
    (self : GenericFactory Key World Obj Exn) (w : World) : (ctorLoop l self w).2 = w := by
  induction l generalizing self with
  | nil => rfl
  | cons el rest ih =>
    unfold ctorLoop
    cases h : self._creators.find el.key with
    | none => exact ih _
    | some fn => rfl

theorem ctorLoop_ok (l : List (initializer Key World Obj Exn))
    (self : GenericFactory Key World Obj Exn) (w : World)
    (hd : l.Pairwise (fun a b => a.key ≠ b.key))
    (hf : ∀ el ∈ l, self._creators.find el.key = none) :
    ctorLoop l self w = (Except.ok (addEach l self), w) := by
  induction l generalizing self with
  | nil => rfl
  | cons el rest ih =>
    unfold ctorLoop
    rw [hf el (List.mem_cons_self el rest)]
    rw [List.pairwise_cons] at hd
    have h2 : ∀ e ∈ rest, (self.add el.key el.fn)._creators.find e.key = none := by
      intro e he
      have hne : e.key ≠ el.key := fun heq => hd.1 e he heq.symm
      show (self._creators.assign el.key el.fn).find e.key = none
      rw [StdMap.find_assign_ne _ _ hne]
      exact hf e (List.mem_cons_of_mem el he)
    exact ih (self.add el.key el.fn) hd.2 h2

theorem ctorLoop_error (l : List (initializer Key World Obj Exn))
    (self : GenericFactory Key World Obj Exn) (w : World)
    (h : ¬ (l.Pairwise (fun a b => a.key ≠ b.key) ∧
      ∀ el ∈ l, self._creators.find el.key = none)) :
    ctorLoop l self w = (Except.error ⟨"Duplicate key in initializer list"⟩, w) := by
  induction l generalizing self with
  | nil => exact absurd ⟨List.Pairwise.nil, fun el he => absurd he (List.not_mem_nil el)⟩ h
  | cons el rest ih =>
    unfold ctorLoop
    cases hfind : self._creators.find el.key with
    | some fn => rfl
    | none =>
      apply ih (self.add el.key el.fn)
      rintro ⟨hp, hr⟩
      have hkey : ∀ e ∈ rest, e.key ≠ el.key ∧ self._creators.find e.key = none := by
        intro e he
        have h1 := hr e he
        change (self._creators.assign el.key el.fn).find e.key = none at h1
        rw [StdMap.find_assign] at h1
        by_cases hk : e.key = el.key
        · rw [if_pos hk] at h1
          cases h1
        · rw [if_neg hk] at h1
          exact ⟨hk, h1⟩
      apply h
      refine ⟨List.pairwise_cons.mpr ⟨fun e he heq => (hkey e he).1 heq.symm, hp⟩, ?_⟩
      intro e he
      rcases List.mem_cons.mp he with rfl | he2
      · exact hfind
      · exact (hkey e he2).2

theorem addEach_available (l : List (initializer Key World Obj Exn))
    (self : GenericFactory Key World Obj Exn) : (addEach l self)._available = self._available := by
  induction l generalizing self with
  | nil => rfl
  | cons el rest ih => exact ih (self.add el.key el.fn)

theorem addEach_find_of_not_mem (l : List (initializer Key World Obj Exn))
    (self : GenericFactory Key World Obj Exn) (k : Key) (hk : ∀ el ∈ l, el.key ≠ k) :
    (addEach l self)._creators.find k = self._creators.find k := by
  induction l generalizing self with
  | nil => rfl
  | cons el rest ih =>
    have h1 : (addEach (el :: rest) self) = addEach rest (self.add el.key el.fn) := rfl
    rw [h1, ih (self.add el.key el.fn) (fun e he => hk e (List.mem_cons_of_mem el he))]
    exact StdMap.find_assign_ne _ _ (fun heq => hk el (List.mem_cons_self el rest) heq.symm)

theorem addEach_find_of_mem (l : List (initializer Key World Obj Exn))
    (self : GenericFactory Key World Obj Exn)
    (hd : l.Pairwise (fun a b => a.key ≠ b.key)) (el : initializer Key World Obj Exn)
    (hel : el ∈ l) : (addEach l self)._creators.find el.key = some el.fn := by
  induction l generalizing self with
  | nil => exact absurd hel (List.not_mem_nil el)
  | cons a rest ih =>
    have h1 : (addEach (a :: rest) self) = addEach rest (self.add a.key a.fn) := rfl
    rw [List.pairwise_cons] at hd
    rcases List.mem_cons.mp hel with rfl | hel2
    · rw [h1, addEach_find_of_not_mem rest _ el.key (fun e he heq => hd.1 e he heq.symm)]
      exact StdMap.find_assign_self _ _ _
    · rw [h1]
      exact ih (self.add a.key a.fn) hd.2 hel2

theorem addEach_isSome (l : List (initializer Key World Obj Exn))
    (self : GenericFactory Key World Obj Exn) (k : Key) :
    ((addEach l self)._creators.find k).isSome = true ↔
      (∃ el ∈ l, el.key = k) ∨ (self._creators.find k).isSome = true := by
  induction l generalizing self with
  | nil => simp [addEach]
  | cons a rest ih =>
    have h1 : (addEach (a :: rest) self) = addEach rest (self.add a.key a.fn) := rfl
    rw [h1, ih (self.add a.key a.fn)]
    have h2 : (self.add a.key a.fn)._creators.find k =
        if k = a.key then some a.fn else self._creators.find k := rfl
    rw [h2]
    by_cases hk : k = a.key
    · subst hk
      simp
    · have hk2 : ¬ a.key = k := fun e => hk e.symm
      simp [hk, hk2]

end GenericFactory

namespace GenericFactory

variable {Key World Obj Exn : Type} [DecidableEq Key]

omit [DecidableEq Key] in
/-- The keys of a list are pairwise distinct exactly when no key stands at two positions. -/
theorem pairwise_keys_iff (l : List (initializer Key World Obj Exn)) :
    l.Pairwise (fun a b => a.key ≠ b.key) ↔
      ¬ ∃ i j : Fin l.length, i ≠ j ∧ (l.get i).key = (l.get j).key := by
  rw [List.pairwise_iff_get]
  constructor
  · rintro h ⟨i, j, hij, hk⟩
    rcases lt_or_gt_of_ne hij with hlt | hgt
    · exact h i j hlt hk
    · exact h j i hgt hk.symm
  · intro h i j hij hk
    exact h ⟨i, j, ne_of_lt hij, hk⟩

theorem ofList_of_distinct (l : List (initializer Key World Obj Exn)) (w : World)
    (hd : l.Pairwise (fun a b => a.key ≠ b.key)) :
    ofList l w = (Except.ok (addEach l new), w) :=
  ctorLoop_ok l new w hd (fun _ _ => rfl)

theorem ofList_of_not_distinct (l : List (initializer Key World Obj Exn)) (w : World)
    (hd : ¬ l.Pairwise (fun a b => a.key ≠ b.key)) :
    ofList l w = (Except.error ⟨"Duplicate key in initializer list"⟩, w) :=
  ctorLoop_error l new w (fun h => hd h.1)

theorem ofList_error_iff (l : List (initializer Key World Obj Exn)) (w : World) :
    (ofList l w).1 = Except.error ⟨"Duplicate key in initializer list"⟩ ↔
      ¬ l.Pairwise (fun a b => a.key ≠ b.key) := by
  constructor
  · intro h hd
    rw [ofList_of_distinct l w hd] at h
    cases h
  · intro hd
    rw [ofList_of_not_distinct l w hd]

end GenericFactory

/-! ## The claims on lookups, the constructor and the single methods -/

namespace GenericFactory

variable {Key World Obj Exn : Type} [DecidableEq Key]

/-- C3, as stated, fails: after constructing from `[(1, alloc)]`, `get 1` and `remove 1`,
key 1 is not registered, yet `get 1` returns the cached object 0 and not a null handle. -/
theorem get_unregistered_counterexample :
    (ofList [⟨1, Demo.alloc⟩] 0).1 = Except.ok (GenericFactory.new.add 1 Demo.alloc) ∧
    Reachable Demo.removedWhileCached ∧
    Demo.removedWhileCached.1.registered.find 1 = none ∧
    (Demo.removedWhileCached.1.get 1 Demo.removedWhileCached.2).1 = Except.ok (some 0) ∧
    (Demo.removedWhileCached.1.get 1 Demo.removedWhileCached.2).1 ≠ Except.ok none := by
  refine ⟨rfl, ?_, rfl, rfl, ?_⟩
  · exact reachable_run _ _ (Reachable.ofList [⟨1, Demo.alloc⟩] 0 _ rfl)
  · intro h
    have h2 : (Demo.removedWhileCached.1.get 1 Demo.removedWhileCached.2).1 =
        Except.ok (some 0) := rfl
    rw [h2] at h
    cases h

/-- C3, amended.  In every factory state, when `k` is neither in the registration map nor
in the live-instance map, `get k` returns a null handle; so `get k` returns an instance
only for keys that are registered or have an element in the live-instance map. -/
theorem get_null_of_unknown (self : GenericFactory Key World Obj Exn) (k : Key) (w : World) :
    (self._creators.find k = none → self._available.find k = none →
      (self.get k w).1 = Except.ok none) ∧
    (∀ o : Obj, (self.get k w).1 = Except.ok (some o) →
      (self._creators.find k).isSome = true ∨ (self._available.find k).isSome = true) := by
  constructor
  · intro hr hc
    rw [get_of_unknown self k w hc hr]
  · intro o ho
    cases hc : self._available.find k with
    | some h => right; rfl
    | none =>
      cases hr : self._creators.find k with
      | some fn => left; rfl
      | none =>
        rw [get_of_unknown self k w hc hr] at ho
        cases ho

/-- Witness of C3 amended: in a new factory `get 1` returns a null handle. -/
theorem get_null_of_unknown_witness :
    (GenericFactory.new : GenericFactory Nat Nat Nat String)._creators.find 1 = none ∧
    (GenericFactory.new : GenericFactory Nat Nat Nat String)._available.find 1 = none ∧
    ((GenericFactory.new : GenericFactory Nat Nat Nat String).get 1 0).1 = Except.ok none :=
  ⟨rfl, rfl, (get_null_of_unknown GenericFactory.new 1 0).1 rfl rfl⟩

/-- C4 (cache hit).  When the live-instance map has the element `h` for `k`, `get k`
returns `h` and leaves the factory (both maps) and the world (no creator runs) as they
were.  Nothing is assumed about the registration of `k`. -/
theorem get_cache_hit (self : GenericFactory Key World Obj Exn) (k : Key) (w : World)
    (h : Option Obj) (hc : self._available.find k = some h) :
    self.get k w = (Except.ok h, self, w) :=
  get_of_available self k w h hc

/-- Witness of C4: object 3 is cached for key 7, which is not registered. -/
theorem get_cache_hit_witness :
    Demo.cachedOnly._creators.find 7 = none ∧
    Demo.cachedOnly._available.find 7 = some (some 3) ∧
    Demo.cachedOnly.get 7 0 = (Except.ok (some 3), Demo.cachedOnly, 0) :=
  ⟨rfl, rfl, get_cache_hit Demo.cachedOnly 7 0 (some 3) rfl⟩

end GenericFactory

namespace GenericFactory

variable {Key World Obj Exn : Type} [DecidableEq Key]

/-- C6 (duplicate keys).  For every list, the list constructor throws the duplicate-key
`runtime_error` exactly when some key stands at two different positions of the list; so
the outcome is the same for every reordering of the list, a list of two entries with the
same key throws, and the constructor leaves the world as it was (no creator runs). -/
theorem ofList_duplicate_iff (l : List (initializer Key World Obj Exn)) (w : World) :
    ((ofList l w).1 = Except.error ⟨"Duplicate key in initializer list"⟩ ↔
      ∃ i j : Fin l.length, i ≠ j ∧ (l.get i).key = (l.get j).key) ∧
    (∀ l2 : List (initializer Key World Obj Exn), l.Perm l2 →
      ((ofList l2 w).1 = Except.error ⟨"Duplicate key in initializer list"⟩ ↔
        (ofList l w).1 = Except.error ⟨"Duplicate key in initializer list"⟩)) ∧
    (∀ (x : Key) (f1 f2 : creatorFunc World Obj Exn),
      ofList [⟨x, f1⟩, ⟨x, f2⟩] w =
        (Except.error ⟨"Duplicate key in initializer list"⟩, w)) ∧
    (ofList l w).2 = w := by
  refine ⟨?_, ?_, ?_, ctorLoop_world l new w⟩
  · rw [ofList_error_iff, pairwise_keys_iff, not_not]
  · intro l2 hp
    rw [ofList_error_iff, ofList_error_iff, not_iff_not]
    exact (List.Perm.pairwise_iff (fun h => Ne.symm h) hp).symm
  · intro x f1 f2
    apply ofList_of_not_distinct
    intro h
    rw [List.pairwise_cons] at h
    exact h.1 ⟨x, f2⟩ (List.mem_singleton_self _) rfl

/-- C7 (list constructor and `add`).  For a list with pairwise distinct keys the list
constructor returns, without touching the world, the factory obtained from the default
one by calling `add` on each pair in list order; in that factory every pair of the list
is registered with its own creator, the registered keys are exactly the keys of the list,
and the live-instance map is empty. -/
theorem ofList_eq_addEach (l : List (initializer Key World Obj Exn)) (w : World)
    (hd : l.Pairwise (fun a b => a.key ≠ b.key)) :
    ofList l w = (Except.ok (addEach l new), w) ∧
    (∀ el ∈ l, (addEach l new).registered.find el.key = some el.fn) ∧
    (∀ k : Key, ((addEach l new).registered.find k).isSome = true ↔ ∃ el ∈ l, el.key = k) ∧
    (addEach l new)._available = StdMap.empty := by
  refine ⟨ofList_of_distinct l w hd, ?_, ?_, ?_⟩
  · intro el hel
    exact addEach_find_of_mem l new hd el hel
  · intro k
    have h := addEach_isSome l (new : GenericFactory Key World Obj Exn) k
    have h0 : ((new : GenericFactory Key World Obj Exn)._creators.find k).isSome = false := rfl
    rw [h0] at h
    simpa using h
  · rw [addEach_available]
    rfl

/-- Witness of C7: the list `[(1, alloc), (2, failing)]`. -/
theorem ofList_eq_addEach_witness :
    Demo.twoKeys.Pairwise (fun a b => a.key ≠ b.key) ∧
    ofList Demo.twoKeys 0 = (Except.ok (addEach Demo.twoKeys new), 0) ∧
    (addEach Demo.twoKeys new).registered.find 2 = some Demo.failing ∧
    (addEach Demo.twoKeys new)._available = StdMap.empty := by
  have hd : Demo.twoKeys.Pairwise (fun a b => a.key ≠ b.key) := by
    simp [Demo.twoKeys]
  have h := ofList_eq_addEach Demo.twoKeys 0 hd
  exact ⟨hd, h.1, h.2.1 ⟨2, Demo.failing⟩ (by simp [Demo.twoKeys]), h.2.2.2⟩

/-- C8 (`add`).  In every factory state `add k fn`, a total function with no failing
outcome, leaves `k` registered with `fn` whether or not `k` was registered, leaves the
registration of every other key as it was, and leaves the live-instance map as it was. -/
theorem add_registers (self : GenericFactory Key World Obj Exn) (k : Key)
    (fn : creatorFunc World Obj Exn) :
    (self.add k fn).registered.find k = some fn ∧
    (∀ j : Key, j ≠ k → (self.add k fn).registered.find j = self.registered.find j) ∧
    (self.add k fn)._available = self._available :=
  ⟨StdMap.find_assign_self _ _ _, fun _ hj => StdMap.find_assign_ne _ _ hj, rfl⟩

/-- Witness of C8: `add 1 failing` on a factory where key 1 is registered and cached. -/
theorem add_registers_witness :
    Demo.registeredCached.registered.find 1 = some Demo.alloc ∧
    (Demo.registeredCached.add 1 Demo.failing).registered.find 1 = some Demo.failing ∧
    (Demo.registeredCached.add 1 Demo.failing).registered.find 2 =
      Demo.registeredCached.registered.find 2 ∧
    (Demo.registeredCached.add 1 Demo.failing)._available.find 1 = some (some 3) :=
  have h := add_registers Demo.registeredCached 1 Demo.failing
  ⟨rfl, h.1, h.2.1 2 (by decide), by rw [h.2.2]; rfl⟩

/-- C9 (`remove`).  In every factory state `remove k` returns true exactly when `k` was
registered, hence false for an unregistered key; afterwards `k` is not registered, the
registration of every other key is as it was, and the live-instance map is as it was. -/
theorem remove_iff_registered (self : GenericFactory Key World Obj Exn) (k : Key) :
    ((self.remove k).1 = true ↔ ∃ fn, self.registered.find k = some fn) ∧
    (self.registered.find k = none → (self.remove k).1 = false) ∧
    (self.remove k).2.registered.find k = none ∧
    (∀ j : Key, j ≠ k → (self.remove k).2.registered.find j = self.registered.find j) ∧
    (self.remove k).2._available = self._available := by
  refine ⟨?_, ?_, ?_, ?_, remove_available self k⟩
  · rw [remove_fst, Option.isSome_iff_exists]
    rfl
  · intro h
    rw [remove_fst]
    have h2 : self._creators.find k = none := h
    rw [h2]
    rfl
  · show (self.remove k).2._creators.find k = none
    rw [remove_creators, if_pos rfl]
  · intro j hj
    show (self.remove k).2._creators.find j = self._creators.find j
    rw [remove_creators, if_neg hj]

/-- Witness of C9: `remove 1` where key 1 is registered and cached, `remove 2` where key 2
is not registered. -/
theorem remove_iff_registered_witness :
    Demo.registeredCached.registered.find 1 = some Demo.alloc ∧
    (Demo.registeredCached.remove 1).1 = true ∧
    (Demo.registeredCached.remove 1).2.registered.find 1 = none ∧
    (Demo.registeredCached.remove 1).2._available.find 1 = some (some 3) ∧
    Demo.registeredCached.registered.find 2 = none ∧
    (Demo.registeredCached.remove 2).1 = false :=
  have h := remove_iff_registered Demo.registeredCached 1
  have h2 := remove_iff_registered Demo.registeredCached 2
  ⟨rfl, h.1.mpr ⟨Demo.alloc, rfl⟩, h.2.2.1, by rw [h.2.2.2.2]; rfl, rfl, h2.2.1 rfl⟩

end GenericFactory

/-! ## Lemmas on the history of a state -/

namespace GenericFactory

variable {Key World Obj Exn : Type} [DecidableEq Key]

end GenericFactory

/-! ## The claims on unregistered keys, misses and the history -/

namespace GenericFactory

variable {Key World Obj Exn : Type} [DecidableEq Key]

/-- C11, as stated, fails: after constructing from `[(1, alloc)]`, `get 1` and `remove 1`,
key 1 is not registered, yet `stop 1` finds the cached object and returns true. -/
theorem stop_unregistered_counterexample :
    Reachable Demo.removedWhileCached ∧
    Demo.removedWhileCached.1.registered.find 1 = none ∧
    Demo.removedWhileCached.1._available.find 1 = some (some 0) ∧
    (Demo.removedWhileCached.1.stop 1).1 = true :=
  ⟨reachable_run _ _ (Reachable.ofList [⟨1, Demo.alloc⟩] 0 _ rfl), rfl, rfl, rfl⟩

/-- C12, as stated, fails: with object 3 cached for key 1 (the state reached from a new
factory by `add 1 alloc` and `get 1` in world 3), `add 1 failing` followed by `remove 1`
leaves key 1 unregistered, yet the `get 1` that follows returns object 3. -/
theorem add_remove_get_counterexample :
    run [Call.add 1 Demo.alloc, Call.get 1] (GenericFactory.new, 3) =
      (Demo.registeredCached, 4) ∧
    Reachable (Demo.registeredCached, 4) ∧
    ((Demo.registeredCached.add 1 Demo.failing).remove 1).1 = true ∧
    ((Demo.registeredCached.add 1 Demo.failing).remove 1).2.registered.find 1 = none ∧
    (((Demo.registeredCached.add 1 Demo.failing).remove 1).2.get 1 4).1 =
      Except.ok (some 3) := by
  have h : run [Call.add 1 Demo.alloc, Call.get 1] (GenericFactory.new, 3) =
      (Demo.registeredCached, 4) := rfl
  refine ⟨h, ?_, rfl, rfl, rfl⟩
  rw [← h]
  exact reachable_run _ _ (Reachable.new 3)

/-- C12, amended.  In every factory state, `add k fn` followed by `remove k` leaves `k`
unregistered and `remove` returns true; the `get k` that follows returns a null handle
when the live-instance map has no element for `k`, and the cached element when it has
one. -/
theorem add_remove_get (self : GenericFactory Key World Obj Exn) (k : Key)
    (fn : creatorFunc World Obj Exn) (w : World) :
    ((self.add k fn).remove k).1 = true ∧
    ((self.add k fn).remove k).2.registered.find k = none ∧
    (self._available.find k = none →
      ((self.add k fn).remove k).2.get k w =
        (Except.ok none, ((self.add k fn).remove k).2, w)) ∧
    (∀ h, self._available.find k = some h →
      ((self.add k fn).remove k).2.get k w =
        (Except.ok h, ((self.add k fn).remove k).2, w)) := by
  have hr : ((self.add k fn).remove k).2._creators.find k = none := by
    rw [remove_creators, if_pos rfl]
  have ha : ((self.add k fn).remove k).2._available = self._available := by
    rw [remove_available]
    rfl
  refine ⟨?_, hr, ?_, ?_⟩
  · rw [remove_fst]
    have h1 : (self.add k fn)._creators.find k = some fn := StdMap.find_assign_self _ _ _
    rw [h1]
    rfl
  · intro hc
    exact get_of_unknown _ k w (by rw [ha]; exact hc) hr
  · intro h hc
    exact get_of_available _ k w h (by rw [ha]; exact hc)

/-- Witness of C12 amended: from a new factory, `add 1 alloc`, `remove 1`, `get 1`. -/
theorem add_remove_get_witness :
    (GenericFactory.new : GenericFactory Nat Nat Nat String)._available.find 1 = none ∧
    (((GenericFactory.new : GenericFactory Nat Nat Nat String).add 1 Demo.alloc).remove 1).1
      = true ∧
    ((((GenericFactory.new : GenericFactory Nat Nat Nat String).add 1 Demo.alloc).remove 1).2.get
      1 0).1 = Except.ok none := by
  have h := add_remove_get (GenericFactory.new : GenericFactory Nat Nat Nat String) 1
    Demo.alloc 0
  refine ⟨rfl, h.1, ?_⟩
  rw [h.2.2.1 rfl]

end GenericFactory

namespace GenericFactory

variable {Key World Obj Exn : Type} [DecidableEq Key]

/-- C16 (a miss does not mutate).  When `k` is neither registered nor in the live-instance
map, `get k` returns a null handle and leaves the factory (both maps) and the world (no
creator runs) as they were; the live-instance map still has no element for `k`, so the
`stop k` that follows returns false. -/
theorem get_miss_unchanged (self : GenericFactory Key World Obj Exn) (k : Key) (w : World)
    (hr : self.registered.find k = none) (hc : self._available.find k = none) :
    self.get k w = (Except.ok none, self, w) ∧
    (self.get k w).2.1._creators = self._creators ∧
    (self.get k w).2.1._available = self._available ∧
    (self.get k w).2.1._available.find k = none ∧
    ((self.get k w).2.1.stop k).1 = false := by
  rw [get_of_unknown self k w hc hr]
  refine ⟨rfl, rfl, rfl, hc, ?_⟩
  show (self.stop k).1 = false
  rw [stop_fst, hc]
  rfl

/-- Witness of C16: key 2 is neither registered nor cached where key 7 is cached. -/
theorem get_miss_unchanged_witness :
    Demo.cachedOnly.registered.find 2 = none ∧
    Demo.cachedOnly._available.find 2 = none ∧
    Demo.cachedOnly.get 2 0 = (Except.ok none, Demo.cachedOnly, 0) ∧
    ((Demo.cachedOnly.get 2 0).2.1.stop 2).1 = false :=
  have h := get_miss_unchanged Demo.cachedOnly 2 0 rfl rfl
  ⟨rfl, rfl, h.1, h.2.2.2.2⟩

end GenericFactory

/-! ## Lemmas on creators that call back -/

namespace Reentrant

variable {Key World Obj Exn : Type} [DecidableEq Key]

/-- A creator that leaves the factory alone returns what `f` returns, whatever answers
its factory would give. -/
theorem call_ofSimple
    (getRec : Factory Key World Obj Exn → Key → World →
      Option (Except Exn (Option Obj) × Factory Key World Obj Exn × World))
    (f : GenericFactory.creatorFunc World Obj Exn) (self : Factory Key World Obj Exn)
    (w : World) : (ofSimple f).call getRec self w = some ((f w).1, self, (f w).2) := rfl

/-- Cache hit: the element found is returned and nothing changes. -/
theorem get_cached (fuel : Nat) (self : Factory Key World Obj Exn) (str : Key) (w : World)
    (h : Option Obj) (hc : self._available.find str = some h) :
    self.get (fuel + 1) str w = some (Except.ok h, self, w) := by
  unfold Factory.get
  rw [hc]
  simp only [StdMap.index_present none self._available str h hc]

/-- Miss on both maps: a null handle is returned and nothing changes. -/
theorem get_unknown (fuel : Nat) (self : Factory Key World Obj Exn) (str : Key) (w : World)
    (hc : self._available.find str = none) (hr : self._creators.find str = none) :
    self.get (fuel + 1) str w = some (Except.ok none, self, w) := by
  unfold Factory.get
  rw [hc]
  simp only [hr]

/-- Miss on the cache, the creator throws: `get` throws the same and leaves the factory as
the creator left it. -/
theorem get_throws (fuel : Nat) (self self1 : Factory Key World Obj Exn) (str : Key)
    (w w1 : World) (fn : creatorFunc Key World Obj Exn) (e : Exn)
    (hc : self._available.find str = none) (hr : self._creators.find str = some fn)
    (hcall : fn.call (Factory.get fuel) self w = some (Except.error e, self1, w1)) :
    self.get (fuel + 1) str w = some (Except.error e, self1, w1) := by
  unfold Factory.get
  rw [hc]
  simp only [hr, hcall]

/-- Miss on the cache, the creator returns: `emplace` and `operator[]` act on the map the
creator left. -/
theorem get_returns (fuel : Nat) (self self1 : Factory Key World Obj Exn) (str : Key)
    (w w1 : World) (fn : creatorFunc Key World Obj Exn) (p : Option Obj)
    (hc : self._available.find str = none) (hr : self._creators.find str = some fn)
    (hcall : fn.call (Factory.get fuel) self w = some (Except.ok p, self1, w1)) :
    self.get (fuel + 1) str w =
      some (Except.ok (StdMap.index none (self1._available.emplace str p) str).1,
        { self1 with
          _available := (StdMap.index none (self1._available.emplace str p) str).2 }, w1) := by
  unfold Factory.get
  rw [hc]
  simp only [hr, hcall]

/-- Miss on the cache, a creator that leaves the factory alone throws. -/
theorem get_closed_throws (fuel : Nat) (self : Factory Key World Obj Exn) (str : Key)
    (w w1 : World) (f : GenericFactory.creatorFunc World Obj Exn) (e : Exn)
    (hc : self._available.find str = none) (hr : self._creators.find str = some (ofSimple f))
    (hf : f w = (Except.error e, w1)) :
    self.get (fuel + 1) str w = some (Except.error e, self, w1) := by
  apply get_throws fuel self self str w w1 (ofSimple f) e hc hr
  rw [call_ofSimple, hf]

/-- Miss on the cache, a creator that leaves the factory alone returns. -/
theorem get_closed_returns (fuel : Nat) (self : Factory Key World Obj Exn) (str : Key)
    (w w1 : World) (f : GenericFactory.creatorFunc World Obj Exn) (p : Option Obj)
    (hc : self._available.find str = none) (hr : self._creators.find str = some (ofSimple f))
    (hf : f w = (Except.ok p, w1)) :
    self.get (fuel + 1) str w =
      some (Except.ok p, { self with _available := self._available.assign str p }, w1) := by
  have hcall : (ofSimple f).call (Factory.get fuel) self w = some (Except.ok p, self, w1) := by
    rw [call_ofSimple, hf]
  rw [get_returns fuel self self str w w1 (ofSimple f) p hc hr hcall]
  have he : self._available.emplace str p = self._available.assign str p :=
    StdMap.emplace_absent self._available str p hc
  rw [he, StdMap.index_present none _ str p (StdMap.find_assign_self _ _ _)]

/-- A run of a creator that comes back still comes back, with the same result, when its
calls of `get` are answered by a `get` that comes back at least as often. -/
theorem call_mono
    (g1 g2 : Factory Key World Obj Exn → Key → World →
      Option (Except Exn (Option Obj) × Factory Key World Obj Exn × World))
    (hg : ∀ self k w r, g1 self k w = some r → g2 self k w = some r)
    (fn : creatorFunc Key World Obj Exn) :
    ∀ (self : Factory Key World Obj Exn) (w : World)
      (r : Except Exn (Option Obj) × Factory Key World Obj Exn × World),
      fn.call g1 self w = some r → fn.call g2 self w = some r := by
  induction fn with
  | ret r0 => intro self w r h; exact h
  | read next ih => intro self w r h; exact ih w self w r h
  | write w1 next ih => intro self w r h; exact ih self w1 r h
  | get str next ih =>
    intro self w r h
    simp only [creatorFunc.call] at h ⊢
    cases h1 : g1 self str w with
    | none =>
      rw [h1] at h
      cases h
    | some t =>
      rw [h1] at h
      rw [hg self str w t h1]
      exact ih t.1 t.2.1 t.2.2 r h
  | stop key next ih => intro self w r h; exact ih _ _ w r h
  | remove key next ih => intro self w r h; exact ih _ _ w r h
  | add key creator next _ ih => intro self w r h; exact ih _ w r h

/-- The bound on nesting only cuts runs off: a `get` that comes back under one bound comes
back with the same result under every larger one. -/
theorem get_mono (fuel : Nat) :
    ∀ (self : Factory Key World Obj Exn) (str : Key) (w : World)
      (r : Except Exn (Option Obj) × Factory Key World Obj Exn × World),
      self.get fuel str w = some r → self.get (fuel + 1) str w = some r := by
  induction fuel with
  | zero =>
    intro self str w r h
    cases h
  | succ n ih =>
    intro self str w r h
    cases hc : self._available.find str with
    | some v =>
      rw [get_cached n self str w v hc] at h
      rw [get_cached (n + 1) self str w v hc]
      exact h
    | none =>
      cases hr : self._creators.find str with
      | none =>
        rw [get_unknown n self str w hc hr] at h
        rw [get_unknown (n + 1) self str w hc hr]
        exact h
      | some fn =>
        cases hcall : fn.call (Factory.get n) self w with
        | none =>
          unfold Factory.get at h
          rw [hc] at h
          simp only [hr, hcall] at h
          cases h
        | some t =>
          have hcall2 : fn.call (Factory.get (n + 1)) self w = some t :=
            call_mono (Factory.get n) (Factory.get (n + 1)) ih fn self w t hcall
          rcases t with ⟨res, self1, w1⟩
          cases res with
          | error e =>
            rw [get_throws n self self1 str w w1 fn e hc hr hcall] at h
            rw [get_throws (n + 1) self self1 str w w1 fn e hc hr hcall2]
            exact h
          | ok p =>
            rw [get_returns n self self1 str w w1 fn p hc hr hcall] at h
            rw [get_returns (n + 1) self self1 str w w1 fn p hc hr hcall2]
            exact h

/-- The first embedding is this one on creators that leave the factory alone: `get` on
the lifted factory does what `GenericFactory.get` does, with any bound of at least 1. -/
theorem get_lift (fuel : Nat) (f : GenericFactory Key World Obj Exn) (str : Key) (w : World) :
    (lift f).get (fuel + 1) str w =
      some ((f.get str w).1, lift (f.get str w).2.1, (f.get str w).2.2) := by
  cases hc : f._available.find str with
  | some h =>
    rw [GenericFactory.get_of_available f str w h hc]
    exact get_cached fuel (lift f) str w h hc
  | none =>
    cases hr : f._creators.find str with
    | none =>
      rw [GenericFactory.get_of_unknown f str w hc hr]
      have hr2 : (lift f)._creators.find str = none := by
        show (f._creators str).map ofSimple = none
        have h3 : f._creators str = none := hr
        rw [h3]
        rfl
      exact get_unknown fuel (lift f) str w hc hr2
    | some fn =>
      have hr2 : (lift f)._creators.find str = some (ofSimple fn) := by
        show (f._creators str).map ofSimple = some (ofSimple fn)
        have h3 : f._creators str = some fn := hr
        rw [h3]
        rfl
      rcases hfw : fn w with ⟨r, w1⟩
      cases r with
      | error e =>
        rw [GenericFactory.get_of_throw f str w w1 fn e hc hr hfw]
        exact get_closed_throws fuel (lift f) str w w1 fn e hc hr2 hfw
      | ok p =>
        rw [GenericFactory.get_of_create f str w w1 fn p hc hr hfw]
        exact get_closed_returns fuel (lift f) str w w1 fn p hc hr2 hfw

end Reentrant

namespace Reentrant

variable {Key World Obj Exn : Type} [DecidableEq Key]

end Reentrant

/-! ## The claims on creators that run -/

namespace Reentrant

variable {Key World Obj Exn : Type} [DecidableEq Key]

end Reentrant

namespace Reentrant

variable {Key World Obj Exn : Type} [DecidableEq Key]

/-- C5, as stated, fails for a creator that calls back into its factory.  Key 1 is
registered with `getThenThrow`, key 2 with the allocating creator, nothing is cached.
The creator of key 1 calls `get 2`, which caches object 0 for key 2, and then throws:
`get 1` throws the same exception and caches nothing for key 1, but the live-instance map
is not what it was before the call. -/
theorem get_creator_throws_counterexample :
    Demo.throwingPair._creators.find 1 = some Demo.getThenThrow ∧
    Demo.throwingPair._available.find 1 = none ∧
    Demo.throwingPair._available.find 2 = none ∧
    (Demo.throwingPair.get 2 1 0).map (fun r => r.1) =
      some (Except.error "creator failed") ∧
    (Demo.throwingPair.get 2 1 0).map (fun r => r.2.1._available.find 1) = some none ∧
    (Demo.throwingPair.get 2 1 0).map (fun r => r.2.1._available.find 2) =
      some (some (some 0)) :=
  ⟨rfl, rfl, rfl, rfl, rfl, rfl⟩

/-- C5, amended (creator failure).  Let `k` be registered with creator `fn` and have no
element in the live-instance map.  If the run of `fn` that `get k` starts throws `e`,
then `get k` throws the same `e` and itself changes neither map: the factory is as the
creator left it.  If `fn` makes no call back into the factory (`ofSimple f`), both maps
are exactly what they were before the call, so no element is cached for `k`; the world is
the one the creator left. -/
theorem get_throws_as_left (self : Factory Key World Obj Exn) (k : Key)
    (fn : creatorFunc Key World Obj Exn) (w : World) (fuel : Nat)
    (hreg : self._creators.find k = some fn) (hnc : self._available.find k = none) :
    (∀ (e : Exn) (self1 : Factory Key World Obj Exn) (w1 : World),
      fn.call (Factory.get fuel) self w = some (Except.error e, self1, w1) →
      self.get (fuel + 1) k w = some (Except.error e, self1, w1)) ∧
    (∀ (f : GenericFactory.creatorFunc World Obj Exn) (e : Exn) (w1 : World),
      fn = ofSimple f → f w = (Except.error e, w1) →
      self.get (fuel + 1) k w = some (Except.error e, self, w1) ∧
      self._available.find k = none) := by
  constructor
  · intro e self1 w1 hcall
    exact get_throws fuel self self1 k w w1 fn e hnc hreg hcall
  · intro f e w1 hf hfw
    rw [hf] at hreg
    exact ⟨get_closed_throws fuel self k w w1 f e hnc hreg hfw, hnc⟩

/-- Witness of C5 amended: key 1 registered with the throwing creator that leaves the
factory alone; and key 1 registered with `getThenThrow`, whose run leaves key 2 cached. -/
theorem get_throws_as_left_witness :
    Demo.closedFailing._creators.find 1 = some (ofSimple Demo.failing) ∧
    Demo.closedFailing._available.find 1 = none ∧
    Demo.failing 5 = (Except.error "creator failed", 6) ∧
    Demo.closedFailing.get 1 1 5 = some (Except.error "creator failed", Demo.closedFailing, 6) ∧
    Demo.getThenThrow.call (Factory.get 1) Demo.throwingPair 0 =
      some (Except.error "creator failed",
        { Demo.throwingPair with _available := StdMap.empty.assign 2 (some 0) }, 1) ∧
    Demo.throwingPair.get 2 1 0 =
      some (Except.error "creator failed",
        { Demo.throwingPair with _available := StdMap.empty.assign 2 (some 0) }, 1) := by
  have hcall : Demo.getThenThrow.call (Factory.get 1) Demo.throwingPair 0 =
      some (Except.error "creator failed",
        { Demo.throwingPair with _available := StdMap.empty.assign 2 (some 0) }, 1) := rfl
  exact ⟨rfl, rfl, rfl,
    ((get_throws_as_left Demo.closedFailing 1 (ofSimple Demo.failing) 5 0 rfl rfl).2
      Demo.failing "creator failed" 6 rfl rfl).1,
    hcall,
    (get_throws_as_left Demo.throwingPair 1 Demo.getThenThrow 0 1 rfl rfl).1
      "creator failed" _ 1 hcall⟩

end Reentrant

namespace Reentrant

variable {Key World Obj Exn : Type} [DecidableEq Key]

end Reentrant

namespace GenericFactory

variable {Key World Obj Exn : Type} [DecidableEq Key]

/-- C11, amended.  In every factory state and for every key `k`, registered or not, the
result of `stop k` depends only on the live-instance map: when it has no element for `k`,
`stop k` returns false and leaves the factory as it was; when it has one, `stop k`
returns true and erases it.  So for a key that is not registered `stop` returns false
when the key is not cached either, and true when it is still cached. -/
theorem stop_by_cache (self : GenericFactory Key World Obj Exn) (k : Key) :
    (self._available.find k = none → self.stop k = (false, self)) ∧
    (∀ h, self._available.find k = some h →
      (self.stop k).1 = true ∧ (self.stop k).2._available.find k = none ∧
      (self.stop k).2.registered = self.registered) := by
  constructor
  · intro hc
    unfold stop
    rw [hc]
  · intro h hc
    refine ⟨?_, ?_, stop_creators self k⟩
    · rw [stop_fst, hc]
      rfl
    · rw [stop_available, if_pos rfl]

/-- Witness of C11 amended: after constructing from `[(1, alloc)]`, `get 1` and
`remove 1`, the unregistered key 1 is still cached and `stop 1` returns true; the
unregistered key 2 is not cached and `stop 2` returns false. -/
theorem stop_by_cache_witness :
    Demo.removedWhileCached.1.registered.find 1 = none ∧
    Demo.removedWhileCached.1._available.find 1 = some (some 0) ∧
    (Demo.removedWhileCached.1.stop 1).1 = true ∧
    (Demo.removedWhileCached.1.stop 1).2._available.find 1 = none ∧
    Demo.removedWhileCached.1.registered.find 2 = none ∧
    Demo.removedWhileCached.1._available.find 2 = none ∧
    Demo.removedWhileCached.1.stop 2 = (false, Demo.removedWhileCached.1) :=
  have h := (stop_by_cache Demo.removedWhileCached.1 1).2 (some 0) rfl
  ⟨rfl, rfl, h.1, h.2.1, rfl, rfl, (stop_by_cache Demo.removedWhileCached.1 2).1 rfl⟩

end GenericFactory
